import Mathlib

/-!
Verification of the boot-time reconciliation and service-lifecycle
orchestration of cmd/discordcore/main.go.

The reconciliation block (main.go lines 114-145) and the deferred shutdown
block (lines 221-233) are embedded directly from the source.  The service
manager internals (pkg/service: StartAll, StopAll) are not part of the
given sources, so they are modelled from the specification where a claim
needs them; such definitions carry a doc comment starting with
"Modelled from the spec:".

Time is embedded as Int nanoseconds, matching Go time.Duration; the clock
is abstracted as the single boot instant given in the environment.
-/

namespace Discordcore

/-- Priority of a service wrapper (service.PriorityHigh / PriorityNormal /
PriorityLow in the source). -/
inductive Priority where
  | high
  | normal
  | low
deriving DecidableEq, Repr

/-- Discord user as far as the reconciliation pass reads it: member.User.ID
and member.User.Avatar. -/
structure User where
  id : String
  avatar : String
deriving DecidableEq, Repr

/-- Guild member; in Go a member is a pointer whose User field is itself a
pointer, so both levels of nil are represented with Option at the use site
and here. -/
structure Member where
  user : Option User
deriving DecidableEq, Repr

/-- One entry of cfg.Guilds (files.GuildConfig as read by main.go: only the
GuildID field is used). -/
structure GuildConfig where
  guildID : String
deriving DecidableEq, Repr

/-- Observable events of the boot and shutdown sequences.  upsertAvatar is
store.UpsertAvatar, setHeartbeat is store.SetHeartbeat (failed records
whether the write returned an error; main.go discards that error),
notify stands for any notification path (never called inside the
reconciliation pass), startService and stopAttempt are the service hooks,
closeStore is store.Close. -/
inductive Event where
  | upsertAvatar (guildID : String) (userID : String) (avatarHash : String) (ts : Int)
  | setHeartbeat (ts : Int) (failed : Bool)
  | logInfo (msg : String)
  | logError (msg : String)
  | notify (msg : String)
  | startService (name : String)
  | stopAttempt (name : String)
  | closeStore
deriving DecidableEq, Repr

/-- Environment main.go runs against: result of store.GetHeartbeat()
(error, or (found, lastHB)), the boot clock, configManager.Config()
(nil or its Guilds list), discordSession.GuildMembers per guild id
(error or the member list, entries possibly nil), and whether
store.SetHeartbeat returns an error. -/
structure BootEnv where
  heartbeat : Except Unit (Bool × Int)
  now : Int
  config : Option (List GuildConfig)
  guildMembers : String → Except Unit (List (Option Member))
  setHeartbeatFails : Bool

/-- 30*time.Minute in nanoseconds, the staleness threshold of
main.go line 116. -/
def staleThreshold : Int := 30 * 60 * 1000000000

/-- Per-guild body of the silent refresh loop, main.go lines 120-134:
on fetch error log and continue; otherwise skip nil members and members
with nil user, replace an empty avatar hash by "default", and upsert. -/
def refreshGuild (env : BootEnv) (gcfg : GuildConfig) : List Event :=
  match env.guildMembers gcfg.guildID with
  | .error _ =>
      [Event.logError ("Failed to list members for silent refresh for guild " ++ gcfg.guildID)]
  | .ok members =>
      members.filterMap (fun m =>
        match m with
        | none => none
        | some member =>
          match member.user with
          | none => none
          | some user =>
            let avatarHash := if user.avatar = "" then "default" else user.avatar
            some (Event.upsertAvatar gcfg.guildID user.id avatarHash env.now))

/-- Guild loop of the silent refresh, main.go lines 118-136: skipped
entirely when configManager.Config() is nil. -/
def silentRefresh (env : BootEnv) : List Event :=
  match env.config with
  | none => []
  | some guilds => guilds.flatMap (refreshGuild env)

/-- Events of the downtime check and (possibly skipped) refresh pass,
main.go lines 115-143, excluding the heartbeat write of line 144. -/
def passEvents (env : BootEnv) : List Event :=
  match env.heartbeat with
  | .ok (ok, lastHB) =>
      if !ok || staleThreshold < env.now - lastHB then
        Event.logInfo "Detected downtime > 30m; performing silent avatar refresh before enabling notifications"
          :: silentRefresh env
          ++ [Event.logInfo "Silent avatar refresh completed"]
      else
        [Event.logInfo "No significant downtime detected; skipping silent avatar refresh"]
  | .error _ =>
      [Event.logError "Failed to read last heartbeat; skipping downtime check"]

/-- Whole reconciliation phase, main.go lines 114-145: the pass followed by
the unconditional heartbeat write of line 144 (store is non-nil here, since
main exits at line 105 when store.Init() fails). -/
def reconcilePhase (env : BootEnv) : List Event :=
  passEvents env ++ [Event.setHeartbeat env.now env.setHeartbeatFails]

/-- Event classifiers used by the temporal statements. -/
def Event.isUpsert : Event → Bool
  | .upsertAvatar _ _ _ _ => true
  | _ => false

def Event.isSetHeartbeat : Event → Bool
  | .setHeartbeat _ _ => true
  | _ => false

def Event.isStartService : Event → Bool
  | .startService _ => true
  | _ => false

def Event.isNotify : Event → Bool
  | .notify _ => true
  | _ => false

def Event.isLogError : Event → Bool
  | .logError _ => true
  | _ => false

def Event.isLog : Event → Bool
  | .logInfo _ => true
  | .logError _ => true
  | _ => false

/-- Descriptor registered with the service manager via
service.NewServiceWrapper in main.go: name, priority and declared
dependencies (the hooks themselves are irrelevant to ordering). -/
structure ServiceSpec where
  name : String
  priority : Priority
  dependencies : List String
deriving DecidableEq, Repr

/-- The monitoring wrapper of main.go lines 161-169: PriorityHigh, no
dependencies. -/
def monitoringWrapper : ServiceSpec :=
  { name := "monitoring", priority := .high, dependencies := [] }

/-- The automod wrapper of main.go lines 177-185: PriorityNormal, no
dependencies. -/
def automodWrapper : ServiceSpec :=
  { name := "automod", priority := .normal, dependencies := [] }

/-- Registration order of main.go lines 188-198: monitoring first, then
automod. -/
def registeredServices : List ServiceSpec := [monitoringWrapper, automodWrapper]

/-- Modelled from the spec: numeric rank for spec section 4.3 step 3,
High before Normal before Low (StartAll lives in pkg/service, not in the
given sources). -/
def priorityRank : Priority → Nat
  | .high => 0
  | .normal => 1
  | .low => 2

/-- Modelled from the spec: a service may start once every declared
dependency has already been started. -/
def depsSatisfied (started : List String) (s : ServiceSpec) : Bool :=
  s.dependencies.all (fun d => started.contains d)

/-- Modelled from the spec: tie-break between two dependency-ready
candidates, by priority then by registration index (section 4.3 step 3).
Candidates are paired with their registration index. -/
def betterCandidate (a b : Nat × ServiceSpec) : Bool :=
  priorityRank a.2.priority < priorityRank b.2.priority ||
    (priorityRank a.2.priority == priorityRank b.2.priority && a.1 < b.1)

/-- Modelled from the spec: fold step keeping the better of the current
best candidate and the next one. -/
def chooseBetter (acc : Option (Nat × ServiceSpec)) (p : Nat × ServiceSpec) :
    Option (Nat × ServiceSpec) :=
  match acc with
  | none => some p
  | some q => if betterCandidate p q then some p else some q

/-- Modelled from the spec: among the pending services whose dependencies
are all started, choose the best by priority then registration index. -/
def pickNext (started : List String) (pending : List (Nat × ServiceSpec)) :
    Option (Nat × ServiceSpec) :=
  (pending.filter (fun p => depsSatisfied started p.2)).foldl chooseBetter none

/-- Modelled from the spec: fuelled Kahn iteration producing the start
order; stops when no pending service is ready (cycle or unknown
dependency, in which case StartAll fails and starts nothing further). -/
def startOrderAux : Nat → List String → List (Nat × ServiceSpec) → List ServiceSpec
  | 0, _, _ => []
  | fuel + 1, started, pending =>
    match pickNext started pending with
    | none => []
    | some p =>
        p.2 :: startOrderAux fuel (p.2.name :: started)
          (pending.filter (fun q => q.1 ≠ p.1))

/-- Modelled from the spec: the deterministic start order StartAll
realizes (spec sections 4.3 and 8). -/
def startOrder (svcs : List ServiceSpec) : List ServiceSpec :=
  startOrderAux svcs.length [] svcs.enum

/-- Checks that each listed service has all its dependencies among the
services started before it (given the initially started names). -/
def topoFrom : List String → List ServiceSpec → Bool
  | _, [] => true
  | started, s :: rest => depsSatisfied started s && topoFrom (s.name :: started) rest

/-- Events emitted by serviceManager.StartAll for the two services main.go
registers, in the realized start order. -/
def serviceStartEvents : List Event :=
  (startOrder registeredServices).map (fun s => Event.startService s.name)

/-- Boot trace of main.go from the reconciliation block (line 114) to
StartAll (line 202): the pass, the heartbeat write, then the service
starts. -/
def mainBootTrace (env : BootEnv) : List Event :=
  reconcilePhase env
    ++ Event.logInfo "Starting all services..." :: serviceStartEvents

/-- Modelled from the spec: a service on the stop path, with the time its
stop hook takes, none meaning the hook never returns (StopAll lives in
pkg/service, not in the given sources; spec section 4.4). -/
structure StopSvc where
  name : String
  stopDuration : Option Nat
deriving DecidableEq, Repr

/-- Modelled from the spec: running state of the StopAll loop — time spent
so far, services recorded as ShutdownTimeout, and the attempt events. -/
structure StopState where
  elapsed : Nat
  timedOut : List String
  events : List Event
deriving DecidableEq, Repr

/-- Modelled from the spec: one step of StopAll (section 4.4): attempt the
stop hook; if it does not finish within the remaining deadline budget —
in particular if it never returns — wait only until the deadline, record a
ShutdownTimeout for that service, and proceed to the next one. -/
def stopStep (deadline : Nat) (st : StopState) (s : StopSvc) : StopState :=
  let remaining := deadline - st.elapsed
  let st := { st with events := st.events ++ [Event.stopAttempt s.name] }
  match s.stopDuration with
  | some d =>
      if d ≤ remaining then { st with elapsed := st.elapsed + d }
      else { st with elapsed := deadline, timedOut := st.timedOut ++ [s.name] }
  | none => { st with elapsed := deadline, timedOut := st.timedOut ++ [s.name] }

/-- Modelled from the spec: StopAll with a deadline (30 seconds in main.go
line 223), attempting every stop hook sequentially and collecting
failures without short-circuiting. -/
def stopAll (deadline : Nat) (svcs : List StopSvc) : StopState :=
  svcs.foldl (stopStep deadline) { elapsed := 0, timedOut := [], events := [] }

/-- Shutdown trace of the deferred function of main.go lines 221-233:
StopAll over every registered service, then store.Close(). -/
def shutdownTrace (deadline : Nat) (svcs : List StopSvc) : List Event :=
  (stopAll deadline svcs).events ++ [Event.closeStore]

/-- The log line emitted exactly when the refresh pass is taken
(main.go line 117). -/
def refreshRanMarker : Event :=
  Event.logInfo "Detected downtime > 30m; performing silent avatar refresh before enabling notifications"

/-- The log line emitted exactly when the refresh pass is skipped as fresh
(main.go line 139). -/
def refreshSkippedMarker : Event :=
  Event.logInfo "No significant downtime detected; skipping silent avatar refresh"

section ReconLemmas

variable (env : BootEnv)

theorem passEvents_run (ok : Bool) (lastHB : Int)
    (hhb : env.heartbeat = .ok (ok, lastHB))
    (hstale : ok = false ∨ staleThreshold < env.now - lastHB) :
    passEvents env =
      refreshRanMarker :: silentRefresh env
        ++ [Event.logInfo "Silent avatar refresh completed"] := by
  unfold passEvents
  rw [hhb]
  have hc : (!ok || decide (staleThreshold < env.now - lastHB)) = true := by
    rcases hstale with h | h
    · simp [h]
    · simp [h]
  simp only [hc, if_true, refreshRanMarker]

theorem passEvents_skip (lastHB : Int)
    (hhb : env.heartbeat = .ok (true, lastHB))
    (hfresh : env.now - lastHB ≤ staleThreshold) :
    passEvents env = [refreshSkippedMarker] := by
  unfold passEvents
  rw [hhb]
  have hc : (!true || decide (staleThreshold < env.now - lastHB)) = false := by
    simp [not_lt.mpr hfresh]
  simp only [hc]
  rfl

theorem passEvents_readError
    (hhb : env.heartbeat = .error ()) :
    passEvents env =
      [Event.logError "Failed to read last heartbeat; skipping downtime check"] := by
  unfold passEvents
  rw [hhb]

theorem refreshGuild_mem_upsert (gcfg : GuildConfig)
    (ms : List (Option Member)) (m : Member) (u : User)
    (hms : env.guildMembers gcfg.guildID = .ok ms)
    (hm : some m ∈ ms) (hu : m.user = some u) :
    Event.upsertAvatar gcfg.guildID u.id
      (if u.avatar = "" then "default" else u.avatar) env.now
      ∈ refreshGuild env gcfg := by
  unfold refreshGuild
  rw [hms]
  apply List.mem_filterMap.mpr
  exact ⟨some m, hm, by simp [hu]⟩

theorem silentRefresh_mem (guilds : List GuildConfig)
    (hcfg : env.config = some guilds) (gcfg : GuildConfig) (hg : gcfg ∈ guilds)
    (e : Event) (he : e ∈ refreshGuild env gcfg) :
    e ∈ silentRefresh env := by
  unfold silentRefresh
  rw [hcfg]
  exact List.mem_flatMap.mpr ⟨gcfg, hg, he⟩

theorem refreshGuild_classify (gcfg : GuildConfig) :
    ∀ e ∈ refreshGuild env gcfg, e.isUpsert = true ∨ e.isLogError = true := by
  intro e he
  unfold refreshGuild at he
  cases h : env.guildMembers gcfg.guildID with
  | error u =>
      rw [h] at he
      simp only [List.mem_singleton] at he
      subst he
      right; rfl
  | ok ms =>
      rw [h] at he
      rcases List.mem_filterMap.mp he with ⟨m, _, hm⟩
      left
      cases m with
      | none => simp at hm
      | some member =>
          cases hu : member.user with
          | none => simp [hu] at hm
          | some u =>
              simp only [hu] at hm
              cases hm
              rfl

theorem silentRefresh_classify :
    ∀ e ∈ silentRefresh env, e.isUpsert = true ∨ e.isLogError = true := by
  intro e he
  unfold silentRefresh at he
  cases hc : env.config with
  | none => rw [hc] at he; simp at he
  | some guilds =>
      rw [hc] at he
      rcases List.mem_flatMap.mp he with ⟨gcfg, _, hg⟩
      exact refreshGuild_classify env gcfg e hg

theorem passEvents_classify :
    ∀ e ∈ passEvents env, e.isUpsert = true ∨ e.isLog = true := by
  intro e he
  cases hhb : env.heartbeat with
  | error u =>
      cases u
      rw [passEvents_readError env hhb] at he
      simp only [List.mem_singleton] at he
      subst he; right; rfl
  | ok p =>
      rcases p with ⟨ok, lastHB⟩
      by_cases hst : ok = false ∨ staleThreshold < env.now - lastHB
      · rw [passEvents_run env ok lastHB hhb hst] at he
        rcases List.mem_cons.mp he with h | h
        · subst h; right; rfl
        · rcases List.mem_append.mp h with h2 | h2
          · rcases silentRefresh_classify env e h2 with h3 | h3
            · left; exact h3
            · right; cases e <;> simp_all [Event.isLogError, Event.isLog]
          · simp only [List.mem_singleton] at h2
            subst h2; right; rfl
      · push_neg at hst
        obtain ⟨hok, hle⟩ := hst
        have hok2 : ok = true := by cases ok <;> simp_all
        rw [passEvents_skip env lastHB (hok2 ▸ hhb) hle] at he
        simp only [List.mem_singleton] at he
        subst he; right; rfl

end ReconLemmas

section ServiceLemmas

theorem stopStep_events (d : Nat) (st : StopState) (s : StopSvc) :
    (stopStep d st s).events = st.events ++ [Event.stopAttempt s.name] := by
  unfold stopStep
  cases s.stopDuration with
  | none => rfl
  | some dur =>
      dsimp only
      split <;> rfl

theorem stopStep_elapsed_le (d : Nat) (st : StopState) (s : StopSvc)
    (h : st.elapsed ≤ d) : (stopStep d st s).elapsed ≤ d := by
  unfold stopStep
  cases s.stopDuration with
  | none => simp
  | some dur =>
      dsimp only
      split
      · rename_i hle
        dsimp only
        omega
      · simp

theorem stopStep_timedOut_mono (d : Nat) (st : StopState) (s : StopSvc)
    (n : String) (h : n ∈ st.timedOut) : n ∈ (stopStep d st s).timedOut := by
  unfold stopStep
  cases s.stopDuration with
  | none => simpa using Or.inl h
  | some dur =>
      dsimp only
      split
      · exact h
      · simpa using Or.inl h

theorem stopStep_hung (d : Nat) (st : StopState) (s : StopSvc)
    (h : s.stopDuration = none) : s.name ∈ (stopStep d st s).timedOut := by
  unfold stopStep
  rw [h]
  simp

theorem stopFold_events (d : Nat) :
    ∀ (l : List StopSvc) (st : StopState),
      (l.foldl (stopStep d) st).events
        = st.events ++ l.map (fun s => Event.stopAttempt s.name) := by
  intro l
  induction l with
  | nil => intro st; simp
  | cons s rest ih =>
      intro st
      simp only [List.foldl_cons, List.map_cons]
      rw [ih, stopStep_events]
      simp

theorem stopFold_elapsed_le (d : Nat) :
    ∀ (l : List StopSvc) (st : StopState),
      st.elapsed ≤ d → (l.foldl (stopStep d) st).elapsed ≤ d := by
  intro l
  induction l with
  | nil => intro st h; simpa using h
  | cons s rest ih =>
      intro st h
      simp only [List.foldl_cons]
      exact ih _ (stopStep_elapsed_le d st s h)

theorem stopFold_timedOut_mono (d : Nat) :
    ∀ (l : List StopSvc) (st : StopState) (n : String),
      n ∈ st.timedOut → n ∈ (l.foldl (stopStep d) st).timedOut := by
  intro l
  induction l with
  | nil => intro st n h; simpa using h
  | cons s rest ih =>
      intro st n h
      simp only [List.foldl_cons]
      exact ih _ _ (stopStep_timedOut_mono d st s n h)

theorem stopFold_hung (d : Nat) :
    ∀ (l : List StopSvc) (st : StopState) (s : StopSvc),
      s ∈ l → s.stopDuration = none →
      s.name ∈ (l.foldl (stopStep d) st).timedOut := by
  intro l
  induction l with
  | nil => intro st s h; simp at h
  | cons hd rest ih =>
      intro st s hmem hhang
      rcases List.mem_cons.mp hmem with h | h
      · subst h
        simp only [List.foldl_cons]
        exact stopFold_timedOut_mono d rest _ _ (stopStep_hung d st s hhang)
      · simp only [List.foldl_cons]
        exact ih _ s h hhang

theorem chooseFold_mem :
    ∀ (l : List (Nat × ServiceSpec)) (acc : Option (Nat × ServiceSpec))
      (p : Nat × ServiceSpec),
      l.foldl chooseBetter acc = some p → p ∈ l ∨ acc = some p := by
  intro l
  induction l with
  | nil => intro acc p h; right; exact h
  | cons q rest ih =>
      intro acc p h
      simp only [List.foldl_cons] at h
      rcases ih (chooseBetter acc q) p h with hmem | heq
      · left; exact List.mem_cons_of_mem _ hmem
      · unfold chooseBetter at heq
        cases acc with
        | none =>
            left
            cases heq
            exact List.mem_cons_self _ _
        | some r =>
            dsimp only at heq
            by_cases hb : betterCandidate q r = true
            · rw [if_pos hb] at heq
              left
              cases heq
              exact List.mem_cons_self _ _
            · rw [if_neg hb] at heq
              right; exact heq

theorem pickNext_depsSatisfied (started : List String)
    (pending : List (Nat × ServiceSpec)) (p : Nat × ServiceSpec)
    (h : pickNext started pending = some p) :
    depsSatisfied started p.2 = true := by
  unfold pickNext at h
  rcases chooseFold_mem _ none p h with hmem | heq
  · exact (List.mem_filter.mp hmem).2
  · cases heq

theorem startOrderAux_topo :
    ∀ (fuel : Nat) (started : List String) (pending : List (Nat × ServiceSpec)),
      topoFrom started (startOrderAux fuel started pending) = true := by
  intro fuel
  induction fuel with
  | zero => intro started pending; rfl
  | succ n ih =>
      intro started pending
      unfold startOrderAux
      cases h : pickNext started pending with
      | none => rfl
      | some p =>
          dsimp only [topoFrom]
          rw [pickNext_depsSatisfied started pending p h, ih]
          rfl

end ServiceLemmas

section UpsertInversion

theorem refreshGuild_upsert_inv (env : BootEnv) (gcfg : GuildConfig)
    (g uid av : String) (ts : Int)
    (h : Event.upsertAvatar g uid av ts ∈ refreshGuild env gcfg) : av ≠ "" := by
  unfold refreshGuild at h
  cases hms : env.guildMembers gcfg.guildID with
  | error u => rw [hms] at h; simp at h
  | ok ms =>
      rw [hms] at h
      rcases List.mem_filterMap.mp h with ⟨m, _, hm⟩
      cases m with
      | none => simp at hm
      | some member =>
          cases hu : member.user with
          | none => simp [hu] at hm
          | some u =>
              simp only [hu, Option.some.injEq, Event.upsertAvatar.injEq] at hm
              obtain ⟨-, -, hav, -⟩ := hm
              by_cases hemp : u.avatar = ""
              · rw [hemp] at hav
                simp only [if_pos rfl] at hav
                rw [← hav]
                decide
              · rw [if_neg hemp] at hav
                rw [← hav]
                exact hemp

theorem passEvents_upsert_in_silentRefresh (env : BootEnv)
    (g uid av : String) (ts : Int)
    (h : Event.upsertAvatar g uid av ts ∈ passEvents env) :
    Event.upsertAvatar g uid av ts ∈ silentRefresh env := by
  cases hhb : env.heartbeat with
  | error u =>
      cases u
      rw [passEvents_readError env hhb] at h
      simp at h
  | ok p =>
      rcases p with ⟨ok, lastHB⟩
      by_cases hst : ok = false ∨ staleThreshold < env.now - lastHB
      · rw [passEvents_run env ok lastHB hhb hst] at h
        rcases List.mem_cons.mp h with h2 | h2
        · cases h2
        · rcases List.mem_append.mp h2 with h3 | h3
          · exact h3
          · simp at h3
      · push_neg at hst
        obtain ⟨hok, hle⟩ := hst
        have hok2 : ok = true := by cases ok <;> simp_all
        rw [passEvents_skip env lastHB (hok2 ▸ hhb) hle] at h
        simp [refreshSkippedMarker] at h

theorem silentRefresh_upsert_inv (env : BootEnv)
    (g uid av : String) (ts : Int)
    (h : Event.upsertAvatar g uid av ts ∈ silentRefresh env) : av ≠ "" := by
  unfold silentRefresh at h
  cases hc : env.config with
  | none => rw [hc] at h; simp at h
  | some guilds =>
      rw [hc] at h
      rcases List.mem_flatMap.mp h with ⟨gcfg, _, hg⟩
      exact refreshGuild_upsert_inv env gcfg g uid av ts hg

theorem refreshGuild_length_eq (env : BootEnv) (gcfg : GuildConfig)
    (ms : List (Option Member)) (hms : env.guildMembers gcfg.guildID = .ok ms) :
    (refreshGuild env gcfg).length
      = (ms.filter (fun m => (Option.bind m Member.user).isSome)).length := by
  unfold refreshGuild
  rw [hms]
  clear hms
  induction ms with
  | nil => rfl
  | cons m rest ih =>
      cases m with
      | none => simpa using ih
      | some member =>
          cases hu : member.user with
          | none => simp [List.filterMap_cons, List.filter_cons, hu, ih]
          | some u => simp [List.filterMap_cons, List.filter_cons, hu, ih]

end UpsertInversion

section ConcreteEnvs

/-- Stale-heartbeat environment: heartbeat missing, two configured guilds,
the first guild fetch failing, the second returning a mix of nil members,
members without user, an ordinary member and a member with empty avatar. -/
def envStaleHB : BootEnv :=
  { heartbeat := .ok (false, 0)
    now := 0
    config := some [{ guildID := "g1" }, { guildID := "g2" }]
    guildMembers := fun g =>
      if g = "g1" then .error ()
      else .ok [some { user := some { id := "u1", avatar := "h1" } },
        none,
        some { user := none },
        some { user := some { id := "u2", avatar := "" } }]
    setHeartbeatFails := false }

/-- Fresh-heartbeat environment: last heartbeat one minute ago. -/
def envFreshHB : BootEnv :=
  { heartbeat := .ok (true, 0)
    now := 60 * 1000000000
    config := some [{ guildID := "g1" }]
    guildMembers := fun _ => .ok [some { user := some { id := "u1", avatar := "h1" } }]
    setHeartbeatFails := false }

/-- Heartbeat-read-error environment. -/
def envReadErr : BootEnv :=
  { heartbeat := .error ()
    now := 0
    config := some [{ guildID := "g1" }]
    guildMembers := fun _ => .ok [some { user := some { id := "u1", avatar := "h1" } }]
    setHeartbeatFails := false }

/-- Fresh-heartbeat environment whose heartbeat write fails. -/
def envWriteFail : BootEnv :=
  { heartbeat := .ok (true, 0)
    now := 0
    config := some []
    guildMembers := fun _ => .ok []
    setHeartbeatFails := true }

end ConcreteEnvs

section Claims

/-- C1: the refresh pass runs exactly when the last heartbeat is absent or
strictly older than the 30 minute staleness threshold; in that case every
configured guild has its members fetched and each member yields one upsert
keyed by (guildID, userID) carrying the member avatar value and the boot
timestamp; with an existing heartbeat not strictly older than the
threshold the pass is skipped and performs no upsert. -/
theorem claim1_refresh_trigger (env : BootEnv) (ok : Bool) (lastHB : Int)
    (hhb : env.heartbeat = .ok (ok, lastHB)) :
    ((refreshRanMarker ∈ passEvents env)
        ↔ (ok = false ∨ staleThreshold < env.now - lastHB))
    ∧ ((ok = false ∨ staleThreshold < env.now - lastHB) →
        ∀ guilds, env.config = some guilds →
          ∀ gcfg ∈ guilds, ∀ ms, env.guildMembers gcfg.guildID = .ok ms →
            ∀ m u, some m ∈ ms → m.user = some u → u.avatar ≠ "" →
              Event.upsertAvatar gcfg.guildID u.id u.avatar env.now ∈ passEvents env)
    ∧ ((ok = true ∧ env.now - lastHB ≤ staleThreshold) →
        ∀ e ∈ passEvents env, e.isUpsert = false) := by
  refine ⟨⟨?_, ?_⟩, ?_, ?_⟩
  · intro hmem
    by_cases hst : ok = false ∨ staleThreshold < env.now - lastHB
    · exact hst
    · exfalso
      push_neg at hst
      obtain ⟨hok, hle⟩ := hst
      have hok2 : ok = true := by cases ok <;> simp_all
      rw [passEvents_skip env lastHB (hok2 ▸ hhb) hle] at hmem
      simp [refreshRanMarker, refreshSkippedMarker] at hmem
  · intro hst
    rw [passEvents_run env ok lastHB hhb hst]
    exact List.mem_cons_self _ _
  · intro hst guilds hcfg gcfg hg ms hms m u hm hu hav
    rw [passEvents_run env ok lastHB hhb hst]
    apply List.mem_cons_of_mem
    apply List.mem_append_left
    have hup := refreshGuild_mem_upsert env gcfg ms m u hms hm hu
    rw [if_neg hav] at hup
    exact silentRefresh_mem env guilds hcfg gcfg hg _ hup
  · rintro ⟨hok, hle⟩ e he
    rw [passEvents_skip env lastHB (hok ▸ hhb) hle] at he
    simp only [List.mem_singleton] at he
    subst he
    rfl

/-- C1 witness: in the concrete stale environment the pass runs and the
ordinary member of guild g2 is upserted with its avatar hash. -/
theorem claim1_refresh_trigger_witness :
    Event.upsertAvatar "g2" "u1" "h1" 0 ∈ passEvents envStaleHB :=
  (claim1_refresh_trigger envStaleHB false 0 rfl).2.1 (Or.inl rfl)
    [{ guildID := "g1" }, { guildID := "g2" }] rfl
    { guildID := "g2" } (by decide)
    [some { user := some { id := "u1", avatar := "h1" } },
      none,
      some { user := none },
      some { user := some { id := "u2", avatar := "" } }] rfl
    { user := some { id := "u1", avatar := "h1" } }
    { id := "u1", avatar := "h1" } (by decide) rfl (by decide)

/-- C4: with an existing heartbeat younger than the staleness threshold,
the reconciliation pass performs zero cache upserts. -/
theorem claim4_fresh_no_upserts (env : BootEnv) (lastHB : Int)
    (hhb : env.heartbeat = .ok (true, lastHB))
    (hyoung : env.now - lastHB < staleThreshold) :
    (passEvents env).filter Event.isUpsert = [] := by
  rw [passEvents_skip env lastHB hhb (le_of_lt hyoung)]
  rfl

/-- C4 witness: the fresh environment (heartbeat one minute old) yields no
upsert in the pass. -/
theorem claim4_fresh_no_upserts_witness :
    (passEvents envFreshHB).filter Event.isUpsert = [] :=
  claim4_fresh_no_upserts envFreshHB 0 rfl (by decide)

/-- C5: during the refresh pass a failed member fetch of one guild is
logged and skipped; every other configured guild is still processed, so a
well-formed member of any successfully fetched guild is still upserted. -/
theorem claim5_guild_failure_isolated (env : BootEnv) (ok : Bool) (lastHB : Int)
    (hhb : env.heartbeat = .ok (ok, lastHB))
    (hst : ok = false ∨ staleThreshold < env.now - lastHB)
    (guilds : List GuildConfig) (hcfg : env.config = some guilds)
    (gBad : GuildConfig) (hbad : gBad ∈ guilds)
    (hfail : env.guildMembers gBad.guildID = .error ())
    (gOk : GuildConfig) (hok : gOk ∈ guilds)
    (ms : List (Option Member)) (hms : env.guildMembers gOk.guildID = .ok ms)
    (m : Member) (u : User) (hm : some m ∈ ms) (hu : m.user = some u) :
    Event.logError ("Failed to list members for silent refresh for guild " ++ gBad.guildID)
        ∈ passEvents env
    ∧ Event.upsertAvatar gOk.guildID u.id
        (if u.avatar = "" then "default" else u.avatar) env.now ∈ passEvents env := by
  rw [passEvents_run env ok lastHB hhb hst]
  constructor
  · apply List.mem_cons_of_mem
    apply List.mem_append_left
    apply silentRefresh_mem env guilds hcfg gBad hbad
    unfold refreshGuild
    rw [hfail]
    exact List.mem_singleton.mpr rfl
  · apply List.mem_cons_of_mem
    apply List.mem_append_left
    exact silentRefresh_mem env guilds hcfg gOk hok _
      (refreshGuild_mem_upsert env gOk ms m u hms hm hu)

/-- C5 witness: in the concrete stale environment guild g1 fails and is
logged while guild g2 is still processed and upserted. -/
theorem claim5_guild_failure_isolated_witness :
    Event.logError "Failed to list members for silent refresh for guild g1"
        ∈ passEvents envStaleHB
    ∧ Event.upsertAvatar "g2" "u1" "h1" 0 ∈ passEvents envStaleHB :=
  claim5_guild_failure_isolated envStaleHB false 0 rfl (Or.inl rfl)
    [{ guildID := "g1" }, { guildID := "g2" }] rfl
    { guildID := "g1" } (by decide) rfl
    { guildID := "g2" } (by decide)
    [some { user := some { id := "u1", avatar := "h1" } },
      none,
      some { user := none },
      some { user := some { id := "u2", avatar := "" } }] rfl
    { user := some { id := "u1", avatar := "h1" } }
    { id := "u1", avatar := "h1" } (by decide) rfl

/-- C7: every event of the reconciliation pass is a cache upsert or a log
line; in particular no notification path is ever invoked by the pass. -/
theorem claim7_no_notification (env : BootEnv) (e : Event)
    (he : e ∈ passEvents env) :
    (e.isUpsert = true ∨ e.isLog = true) ∧ e.isNotify = false := by
  have h := passEvents_classify env e he
  refine ⟨h, ?_⟩
  rcases h with h | h <;>
    cases e <;>
    simp_all [Event.isUpsert, Event.isLog, Event.isNotify]

/-- C7 witness: applied to a concrete pass event of the stale
environment. -/
theorem claim7_no_notification_witness :
    ((Event.upsertAvatar "g2" "u1" "h1" 0).isUpsert = true
        ∨ (Event.upsertAvatar "g2" "u1" "h1" 0).isLog = true)
    ∧ (Event.upsertAvatar "g2" "u1" "h1" 0).isNotify = false :=
  claim7_no_notification envStaleHB (Event.upsertAvatar "g2" "u1" "h1" 0) (by decide)

/-- C9: when reading the heartbeat fails, the refresh pass is skipped with
zero upserts, a fresh heartbeat is still written afterwards, and the boot
sequence still reaches the service starts. -/
theorem claim9_read_error_skips_pass (env : BootEnv)
    (hhb : env.heartbeat = .error ()) :
    (passEvents env).filter Event.isUpsert = []
    ∧ Event.setHeartbeat env.now env.setHeartbeatFails ∈ mainBootTrace env
    ∧ Event.startService "monitoring" ∈ mainBootTrace env := by
  have hp := passEvents_readError env hhb
  refine ⟨by rw [hp]; rfl, ?_, ?_⟩
  · unfold mainBootTrace reconcilePhase
    simp
  · unfold mainBootTrace
    apply List.mem_append_right
    apply List.mem_cons_of_mem
    decide

/-- C9 witness: the concrete read-error environment. -/
theorem claim9_read_error_skips_pass_witness :
    (passEvents envReadErr).filter Event.isUpsert = []
    ∧ Event.setHeartbeat 0 false ∈ mainBootTrace envReadErr
    ∧ Event.startService "monitoring" ∈ mainBootTrace envReadErr :=
  claim9_read_error_skips_pass envReadErr rfl

/-- C10: every upsert of the reconciliation pass carries a non-empty
avatar value; members that are nil or lack a user produce no upsert (the
per-guild upsert count equals the count of members with a user); a member
with an empty avatar hash is upserted with the sentinel "default". -/
theorem claim10_upsert_values :
    (∀ (env : BootEnv) (g uid av : String) (ts : Int),
        Event.upsertAvatar g uid av ts ∈ passEvents env → av ≠ "")
    ∧ (∀ (env : BootEnv) (gcfg : GuildConfig) (ms : List (Option Member)),
        env.guildMembers gcfg.guildID = .ok ms →
        (refreshGuild env gcfg).length
          = (ms.filter (fun m => (Option.bind m Member.user).isSome)).length)
    ∧ (∀ (env : BootEnv) (gcfg : GuildConfig) (ms : List (Option Member))
        (m : Member) (u : User),
        env.guildMembers gcfg.guildID = .ok ms → some m ∈ ms →
        m.user = some u → u.avatar = "" →
          Event.upsertAvatar gcfg.guildID u.id "default" env.now
            ∈ refreshGuild env gcfg) := by
  refine ⟨?_, ?_, ?_⟩
  · intro env g uid av ts h
    exact silentRefresh_upsert_inv env g uid av ts
      (passEvents_upsert_in_silentRefresh env g uid av ts h)
  · intro env gcfg ms hms
    exact refreshGuild_length_eq env gcfg ms hms
  · intro env gcfg ms m u hms hm hu hav
    have h := refreshGuild_mem_upsert env gcfg ms m u hms hm hu
    rw [hav] at h
    simpa using h

/-- C10 witness: in the stale environment the empty-avatar member u2 of
guild g2 is upserted with the sentinel value, and the guild produces
exactly two upserts for its two members with a user. -/
theorem claim10_upsert_values_witness :
    ("default" ≠ "")
    ∧ (refreshGuild envStaleHB { guildID := "g2" }).length
        = ([some { user := some { id := "u1", avatar := "h1" } },
            none,
            some { user := none },
            some { user := some { id := "u2", avatar := "" } }].filter
              (fun m => (Option.bind m Member.user).isSome)).length
    ∧ Event.upsertAvatar "g2" "u2" "default" 0
        ∈ refreshGuild envStaleHB { guildID := "g2" } :=
  ⟨claim10_upsert_values.1 envStaleHB "g2" "u2" "default" 0 (by decide),
    claim10_upsert_values.2.1 envStaleHB { guildID := "g2" } _ rfl,
    claim10_upsert_values.2.2 envStaleHB { guildID := "g2" }
      [some { user := some { id := "u1", avatar := "h1" } },
        none,
        some { user := none },
        some { user := some { id := "u2", avatar := "" } }]
      { user := some { id := "u2", avatar := "" } }
      { id := "u2", avatar := "" } rfl (by decide) rfl rfl⟩

/-- C2: StopAll is bounded by its configured deadline (30 seconds in this
program): the total time spent never exceeds the deadline, a stop hook
that never returns is reported as timed out, and in the concrete
two-service shutdown with one hanging hook exactly that service is
reported. -/
theorem claim2_stopall_deadline (d : Nat) (svcs : List StopSvc) (s : StopSvc)
    (hs : s ∈ svcs) (hhang : s.stopDuration = none) :
    (stopAll d svcs).elapsed ≤ d
    ∧ s.name ∈ (stopAll d svcs).timedOut
    ∧ (stopAll 30 [{ name := "automod", stopDuration := some 1 },
        { name := "monitoring", stopDuration := none }]).timedOut
        = ["monitoring"] := by
  refine ⟨?_, ?_, by decide⟩
  · unfold stopAll
    exact stopFold_elapsed_le d svcs _ (by simp)
  · unfold stopAll
    exact stopFold_hung d svcs _ s hs hhang

/-- C2 witness: the concrete shutdown with a hanging monitoring hook. -/
theorem claim2_stopall_deadline_witness :
    (stopAll 30 [{ name := "automod", stopDuration := some 1 },
        { name := "monitoring", stopDuration := none }]).elapsed ≤ 30
    ∧ "monitoring" ∈ (stopAll 30 [{ name := "automod", stopDuration := some 1 },
        { name := "monitoring", stopDuration := none }]).timedOut :=
  have h := claim2_stopall_deadline 30
    [{ name := "automod", stopDuration := some 1 },
      { name := "monitoring", stopDuration := none }]
    { name := "monitoring", stopDuration := none } (by decide) rfl
  ⟨h.1, h.2.1⟩

/-- C6: the store is closed strictly after StopAll has attempted every
stop hook: the shutdown trace is exactly one stop attempt per service
followed by the close, and the close never occurs among the stop
attempts. -/
theorem claim6_close_after_stops (d : Nat) (svcs : List StopSvc) :
    shutdownTrace d svcs
      = (svcs.map (fun s => Event.stopAttempt s.name)) ++ [Event.closeStore]
    ∧ ∀ e ∈ (stopAll d svcs).events, e ≠ Event.closeStore := by
  have hev : (stopAll d svcs).events = svcs.map (fun s => Event.stopAttempt s.name) := by
    unfold stopAll
    simpa using stopFold_events d svcs _
  refine ⟨?_, ?_⟩
  · unfold shutdownTrace
    rw [hev]
  · intro e he
    rw [hev] at he
    rcases List.mem_map.mp he with ⟨s, _, hs⟩
    rw [← hs]
    simp

/-- C6 witness: in the concrete two-service shutdown each stop attempt
precedes the close and is distinct from it. -/
theorem claim6_close_after_stops_witness :
    shutdownTrace 30 [{ name := "automod", stopDuration := some 1 },
        { name := "monitoring", stopDuration := none }]
      = [Event.stopAttempt "automod", Event.stopAttempt "monitoring",
          Event.closeStore]
    ∧ Event.stopAttempt "automod" ≠ Event.closeStore :=
  have h := claim6_close_after_stops 30
    [{ name := "automod", stopDuration := some 1 },
      { name := "monitoring", stopDuration := none }]
  ⟨h.1, h.2 (Event.stopAttempt "automod") (by decide)⟩

/-- C8: the realized start order always respects the dependency relation
(each started service has all its dependencies started earlier), and for
the two services main.go registers — monitoring with PriorityHigh
registered first, automod with PriorityNormal registered second, both
without dependencies — monitoring starts before automod. -/
theorem claim8_start_order :
    (∀ svcs : List ServiceSpec, topoFrom [] (startOrder svcs) = true)
    ∧ startOrder registeredServices = [monitoringWrapper, automodWrapper] := by
  constructor
  · intro svcs
    exact startOrderAux_topo _ _ _
  · decide

/-- C3 counterexample: in a boot whose heartbeat write fails, nothing is
reported anywhere in the boot trace — the write error is silently
discarded by main.go line 144 — refuting the reported-but-non-fatal part
of the claim. -/
theorem claim3_counterexample :
    Event.setHeartbeat 0 true ∈ mainBootTrace envWriteFail
    ∧ (mainBootTrace envWriteFail).filter Event.isLogError = [] := by
  constructor
  · decide
  · decide

/-- C3 as amended: on every boot the heartbeat is written exactly once,
after all events of the reconciliation pass and before the first service
start; the events after the write do not depend on whether the write
failed, so a failed write is silently ignored and does not abort the boot
sequence. -/
theorem claim3_heartbeat_ordering (env : BootEnv) :
    mainBootTrace env
      = passEvents env
        ++ Event.setHeartbeat env.now env.setHeartbeatFails
        :: Event.logInfo "Starting all services..." :: serviceStartEvents
    ∧ (∀ e ∈ passEvents env, e.isStartService = false ∧ e.isSetHeartbeat = false)
    ∧ (∀ e ∈ serviceStartEvents, e.isUpsert = false ∧ e.isSetHeartbeat = false)
    ∧ Event.startService "monitoring" ∈ serviceStartEvents := by
  refine ⟨?_, ?_, ?_, ?_⟩
  · unfold mainBootTrace reconcilePhase
    simp
  · intro e he
    rcases passEvents_classify env e he with h | h <;>
      cases e <;>
      simp_all [Event.isUpsert, Event.isLog, Event.isStartService, Event.isSetHeartbeat]
  · intro e he
    have : serviceStartEvents
        = [Event.startService "monitoring", Event.startService "automod"] := by decide
    rw [this] at he
    rcases List.mem_cons.mp he with h | h
    · subst h; exact ⟨rfl, rfl⟩
    · simp only [List.mem_singleton] at h
      subst h; exact ⟨rfl, rfl⟩
  · decide

/-- C3 witness: the ordering statement applied to the concrete
write-failure environment. -/
theorem claim3_heartbeat_ordering_witness :
    mainBootTrace envWriteFail
      = passEvents envWriteFail
        ++ Event.setHeartbeat 0 true
        :: Event.logInfo "Starting all services..." :: serviceStartEvents
    ∧ (refreshSkippedMarker.isStartService = false
        ∧ refreshSkippedMarker.isSetHeartbeat = false) :=
  have h := claim3_heartbeat_ordering envWriteFail
  ⟨h.1, h.2.1 refreshSkippedMarker (by decide)⟩

end Claims

end Discordcore
